import Mathlib

/-!
Shallow embedding of the DAQmx raw-data decoder of npTDMS
(`nptdms/daqmx.py`).  Byte streams are modelled as `List Nat` (each
element one byte value), file reads as functions consuming a prefix of
the list, and Python exceptions as `Except` errors.  The collaborators
that live outside `daqmx.py` (the `types` module's primitive readers and
generic type table, and `read_interleaved_segment_bytes` from
`base_segment.py`) are modelled from the spec where noted.
-/

namespace Nptdms

/-- Byte order of a TDMS segment (`self.endianness` in the source). -/
inductive Endianness
  | little
  | big
deriving DecidableEq

/-- Value of a little-endian byte sequence. -/
def leBytesToNat : List Nat → Nat
  | [] => 0
  | b :: rest => b + 256 * leBytesToNat rest

/-- Value of a byte sequence at a given endianness.  Modelled from the
spec: the primitive reader reads fixed-width integers honouring the
declared byte order. -/
def bytesToNat (e : Endianness) (bs : List Nat) : Nat :=
  match e with
  | .little => leBytesToNat bs
  | .big => leBytesToNat bs.reverse

/-- Modelled from the spec: the generic TDMS data types (`types`
module).  Only `DaqMxRawData` is distinguished; the remaining entries of
the generic table are kept opaque via their numeric code. -/
inductive TdsType
  | daqmxRawData
  | generic (code : Nat)
deriving DecidableEq

/-- Modelled from the spec: the generic TDMS type table
(`types.tds_data_types`) is external to `daqmx.py`, so it is kept
abstract as a partial map from 4-byte codes to types. -/
def TdsTable := Nat → Option TdsType

/-- The six DAQmx scaler data types (values of `DAQMX_TYPES`). -/
inductive DaqmxType
  | uint8
  | int8
  | uint16
  | int16
  | uint32
  | int32
deriving DecidableEq

/-- Byte width of a DAQmx scaler data type (`data_type.size`). -/
def DaqmxType.size : DaqmxType → Nat
  | .uint8 => 1
  | .int8 => 1
  | .uint16 => 2
  | .int16 => 2
  | .uint32 => 4
  | .int32 => 4

/-- Whether the numpy dtype of a DAQmx scaler type is signed. -/
def DaqmxType.signed : DaqmxType → Bool
  | .uint8 => false
  | .int8 => true
  | .uint16 => false
  | .int16 => true
  | .uint32 => false
  | .int32 => true

/-- Failures raised while parsing metadata (Python `KeyError` /
`ValueError` in the source, named here after the spec's taxonomy). -/
inductive ParseError
  | endOfData
  | invalidRawDataIndex
  | unrecognisedDataType
  | invalidDimension
  | unrecognizedType
  | unknownScalerHeader
deriving DecidableEq

/-- Failures raised while decoding a data chunk.  `noObjects` and
`noMetadata` stand for the Python `IndexError` / `AttributeError` on an
empty object list or missing metadata; `invalidOffset` is the numpy
`IndexError` raised by an out-of-bounds column selection. -/
inductive DecodeError
  | mixedDataTypes
  | noObjects
  | noMetadata
  | endOfData
  | invalidOffset
deriving DecidableEq

/-- Take `k` bytes off the stream; end-of-stream is fatal
(`UnexpectedEndOfData`). -/
def readBytes (k : Nat) (s : List Nat) : Except ParseError (List Nat × List Nat) :=
  if k ≤ s.length then .ok (s.take k, s.drop k) else .error .endOfData

/-- `types.Uint8.read` (a single byte; endianness is irrelevant). -/
def readUint8 (s : List Nat) : Except ParseError (Nat × List Nat) :=
  (readBytes 1 s).map (fun p => (leBytesToNat p.1, p.2))

/-- `types.Uint32.read` at the given endianness. -/
def readUint32 (e : Endianness) (s : List Nat) : Except ParseError (Nat × List Nat) :=
  (readBytes 4 s).map (fun p => (bytesToNat e p.1, p.2))

/-- `types.Uint64.read` at the given endianness. -/
def readUint64 (e : Endianness) (s : List Nat) : Except ParseError (Nat × List Nat) :=
  (readBytes 8 s).map (fun p => (bytesToNat e p.1, p.2))

/-- `FORMAT_CHANGING_SCALER = 0x00001269`. -/
def FORMAT_CHANGING_SCALER : Nat := 0x00001269

/-- `DIGITAL_LINE_SCALER = 0x0000126A`. -/
def DIGITAL_LINE_SCALER : Nat := 0x0000126A

/-- `DAQMX_TYPES`: type codes for DAQmx scalers (distinct from the
normal TDMS type codes). -/
def DAQMX_TYPES : Nat → Option DaqmxType
  | 0 => some .uint8
  | 1 => some .int8
  | 2 => some .uint16
  | 3 => some .int16
  | 4 => some .uint32
  | 5 => some .int32
  | _ => none

/-- Fields of a `DaqMxScaler` (format-changing scaler record). -/
structure DaqMxScaler where
  scale_id : Nat
  data_type : DaqmxType
  raw_buffer_index : Nat
  raw_byte_offset : Nat
  sample_format_bitmap : Nat
deriving DecidableEq

/-- Fields of a `DigitalLineScaler` (digital-line scaler record). -/
structure DigitalLineScaler where
  scale_id : Nat
  data_type : DaqmxType
  raw_buffer_index : Nat
  raw_bit_offset : Nat
  sample_format_bitmap : Nat
deriving DecidableEq

/-- A parsed scaler: one of the two source classes. -/
inductive Scaler
  | formatChanging (s : DaqMxScaler)
  | digitalLine (s : DigitalLineScaler)
deriving DecidableEq

/-- `DaqMxScaler.__init__`: five 4-byte fields, in stream order
data-type code, `raw_buffer_index`, `raw_byte_offset`,
`sample_format_bitmap`, `scale_id`.  An unknown data-type code is a
`KeyError` on `DAQMX_TYPES`. -/
def parseDaqMxScaler (e : Endianness) (s : List Nat) :
    Except ParseError (DaqMxScaler × List Nat) := do
  let (data_type_code, s) ← readUint32 e s
  let data_type ← match DAQMX_TYPES data_type_code with
    | some t => .ok t
    | none => .error .unrecognizedType
  let (raw_buffer_index, s) ← readUint32 e s
  let (raw_byte_offset, s) ← readUint32 e s
  let (sample_format_bitmap, s) ← readUint32 e s
  let (scale_id, s) ← readUint32 e s
  .ok ({ scale_id := scale_id, data_type := data_type,
         raw_buffer_index := raw_buffer_index,
         raw_byte_offset := raw_byte_offset,
         sample_format_bitmap := sample_format_bitmap }, s)

/-- `DigitalLineScaler.__init__`: same field order but
`sample_format_bitmap` is read as 1 byte (`types.Uint8`), not 4. -/
def parseDigitalLineScaler (e : Endianness) (s : List Nat) :
    Except ParseError (DigitalLineScaler × List Nat) := do
  let (data_type_code, s) ← readUint32 e s
  let data_type ← match DAQMX_TYPES data_type_code with
    | some t => .ok t
    | none => .error .unrecognizedType
  let (raw_buffer_index, s) ← readUint32 e s
  let (raw_bit_offset, s) ← readUint32 e s
  let (sample_format_bitmap, s) ← readUint8 s
  let (scale_id, s) ← readUint32 e s
  .ok ({ scale_id := scale_id, data_type := data_type,
         raw_buffer_index := raw_buffer_index,
         raw_bit_offset := raw_bit_offset,
         sample_format_bitmap := sample_format_bitmap }, s)

/-- `_scaler_classes`: dispatch from the raw-data-index header to the
scaler record parser (a `KeyError` outside the two known headers). -/
def scaler_classes (scaler_type : Nat) :
    Option (Endianness → List Nat → Except ParseError (Scaler × List Nat)) :=
  if scaler_type = FORMAT_CHANGING_SCALER then
    some (fun e s => (parseDaqMxScaler e s).map (fun p => (.formatChanging p.1, p.2)))
  else if scaler_type = DIGITAL_LINE_SCALER then
    some (fun e s => (parseDigitalLineScaler e s).map (fun p => (.digitalLine p.1, p.2)))
  else none

/-- `int32` wrap used by the `raw_data_widths` array: the widths are
read as 4-byte unsigned values but stored into a numpy array of dtype
`np.int32`, so a value of `2 ^ 31` or more wraps into the negative
signed range. -/
def int32wrap (v : Nat) : Int :=
  if v % 4294967296 < 2147483648 then ((v % 4294967296 : Nat) : Int)
  else ((v % 4294967296 : Nat) : Int) - 4294967296

/-- The width-reading loop of `DaqMxMetadata.__init__`: `count` 4-byte
unsigned reads assigned in order into an `np.int32` array. -/
def readRawDataWidths (e : Endianness) : Nat → List Nat →
    Except ParseError (List Int × List Nat)
  | 0, s => .ok ([], s)
  | k + 1, s => do
    let (v, s) ← readUint32 e s
    let (vs, s) ← readRawDataWidths e k s
    .ok (int32wrap v :: vs, s)

/-- The scaler-vector reading loop of `DaqMxMetadata.__init__`:
`count` records, each parsed by the class picked from
`_scaler_classes`. -/
def readScalers
    (cls : Endianness → List Nat → Except ParseError (Scaler × List Nat))
    (e : Endianness) : Nat → List Nat → Except ParseError (List Scaler × List Nat)
  | 0, s => .ok ([], s)
  | k + 1, s => do
    let (sc, s) ← cls e s
    let (scs, s) ← readScalers cls e k s
    .ok (sc :: scs, s)

/-- `DaqMxMetadata.__slots__`. -/
structure DaqMxMetadata where
  data_type : TdsType
  scaler_type : Nat
  dimension : Nat
  chunk_size : Nat
  raw_data_widths : List Int
  scalers : List Scaler
deriving DecidableEq

/-- `DaqMxMetadata.__init__`: `tds_data_types[0xFFFFFFFF]` lookup,
dimension (must be 1), chunk size, scaler vector, raw data widths, in
stream order.  The generic type table is passed in because it lives
outside `daqmx.py`. -/
def parseDaqMxMetadata (tds : TdsTable) (e : Endianness) (scaler_type : Nat)
    (s : List Nat) : Except ParseError (DaqMxMetadata × List Nat) := do
  let data_type ← match tds 0xFFFFFFFF with
    | some t => .ok t
    | none => .error .unrecognisedDataType
  let (dimension, s) ← readUint32 e s
  if dimension ≠ 1 then .error .invalidDimension else do
  let (chunk_size, s) ← readUint64 e s
  let (scaler_vector_length, s) ← readUint32 e s
  let cls ← match scaler_classes scaler_type with
    | some c => .ok c
    | none => .error .unknownScalerHeader
  let (scalers, s) ← readScalers cls e scaler_vector_length s
  let (raw_data_widths_length, s) ← readUint32 e s
  let (raw_data_widths, s) ← readRawDataWidths e raw_data_widths_length s
  .ok ({ data_type := data_type, scaler_type := scaler_type,
         dimension := dimension, chunk_size := chunk_size,
         raw_data_widths := raw_data_widths, scalers := scalers }, s)

/-- A `DaqmxSegmentObject` together with the `BaseSegmentObject` fields
it reads (`path`, `data_type`, `number_values`, `data_size`,
`has_data`); `has_data` is modelled from the spec since
`base_segment.py` is external. -/
structure DaqmxSegmentObject where
  path : String
  has_data : Bool
  data_type : TdsType
  number_values : Nat
  data_size : Int
  daqmx_metadata : Option DaqMxMetadata
deriving DecidableEq

/-- `DaqmxSegmentObject.read_raw_data_index`: validate the header, read
and validate the outer data-type value, parse the DAQmx metadata, then
overwrite `data_type` with the metadata's own derived type and set the
chunking fields.  Returns the updated object and the remaining
stream. -/
def read_raw_data_index (tds : TdsTable) (e : Endianness)
    (obj : DaqmxSegmentObject) (raw_data_index_header : Nat) (s : List Nat) :
    Except ParseError (DaqmxSegmentObject × List Nat) := do
  if raw_data_index_header ≠ FORMAT_CHANGING_SCALER ∧
      raw_data_index_header ≠ DIGITAL_LINE_SCALER then
    .error .invalidRawDataIndex
  else do
  let (data_type_val, s) ← readUint32 e s
  let _outer_data_type ← match tds data_type_val with
    | some t => .ok t
    | none => .error .unrecognisedDataType
  let (daqmx_metadata, s) ← parseDaqMxMetadata tds e raw_data_index_header s
  .ok ({ obj with
         data_type := daqmx_metadata.data_type,
         data_size := (daqmx_metadata.chunk_size : Int) * daqmx_metadata.raw_data_widths.sum,
         number_values := daqmx_metadata.chunk_size,
         daqmx_metadata := some daqmx_metadata }, s)

/-- The `total_raw_data_width` property: sum of the raw data widths.
(The Python property would fail on a missing metadata; the `none` case
is never reached through guarded callers.) -/
def total_raw_data_width (obj : DaqmxSegmentObject) : Int :=
  match obj.daqmx_metadata with
  | some m => m.raw_data_widths.sum
  | none => 0

/-- The quantity `o.number_values * o.total_raw_data_width` tested by
`DaqmxSegment._get_chunk_size`. -/
def productOf (obj : DaqmxSegmentObject) : Int :=
  (obj.number_values : Int) * total_raw_data_width obj

/-- `DaqmxSegment._get_chunk_size`: the first channel object that has
data and a positive `number_values * total_raw_data_width` supplies the
chunk size; `StopIteration` (no such object) gives 0. -/
def get_chunk_size : List DaqmxSegmentObject → Int
  | [] => 0
  | o :: rest =>
    if o.has_data ∧ 0 < productOf o then productOf o else get_chunk_size rest

/-- The chunk-size rule exactly as the claim words it: the first
object in order whose `number_values * total_raw_data_width` is
nonzero, regardless of `has_data`; 0 when there is none. -/
def chunkSizeClaimC4 : List DaqmxSegmentObject → Int
  | [] => 0
  | o :: rest =>
    if productOf o ≠ 0 then productOf o else chunkSizeClaimC4 rest

/-- `DaqMxScaler.byte_offset` / `DigitalLineScaler.byte_offset`. -/
def Scaler.byte_offset : Scaler → Nat
  | .formatChanging s => s.raw_byte_offset
  | .digitalLine s => s.raw_bit_offset / 8

/-- The `data_type` attribute of either scaler class. -/
def Scaler.data_type : Scaler → DaqmxType
  | .formatChanging s => s.data_type
  | .digitalLine s => s.data_type

/-- The `raw_buffer_index` attribute of either scaler class. -/
def Scaler.raw_buffer_index : Scaler → Nat
  | .formatChanging s => s.raw_buffer_index
  | .digitalLine s => s.raw_buffer_index

/-- The `scale_id` attribute of either scaler class. -/
def Scaler.scale_id : Scaler → Nat
  | .formatChanging s => s.scale_id
  | .digitalLine s => s.scale_id

/-- `postprocess_data`: identity for `DaqMxScaler`; for
`DigitalLineScaler` the elementwise
`np.right_shift(np.bitwise_and(data, 1 << (raw_bit_offset % 8)),
raw_bit_offset % 8)` (numpy shifts on signed integers are
arithmetic, which `Int.shiftRight` matches). -/
def Scaler.postprocess_data : Scaler → List Int → List Int
  | .formatChanging _, data => data
  | .digitalLine s, data =>
    data.map (fun v =>
      Int.shiftRight (Int.land v ((1 <<< (s.raw_bit_offset % 8) : Nat) : Int))
        (s.raw_bit_offset % 8))

/-- The scaler list of an object's metadata (`obj.daqmx_metadata.scalers`;
the `none` case is unreachable through guarded callers). -/
def scalersOf (obj : DaqmxSegmentObject) : List Scaler :=
  match obj.daqmx_metadata with
  | some m => m.scalers
  | none => []

/-- Rows of a raw buffer: `chunk_size` rows of `width` bytes each, in
row-major order (the 2-D shape returned by the interleaved read). -/
def groupBytes (width chunk_size : Nat) (l : List Nat) : List (List Nat) :=
  (List.range chunk_size).map (fun i => (l.drop (i * width)).take width)

/-- Modelled from the spec: `read_interleaved_segment_bytes` from
`base_segment.py` reads `raw_data_width * chunk_size` bytes and returns
them as a 2-D (rows x width) byte view; exhausting the stream is
`UnexpectedEndOfData`. -/
def read_interleaved_segment_bytes (width chunk_size : Nat) (s : List Nat) :
    Except DecodeError (List (List Nat) × List Nat) :=
  if chunk_size * width ≤ s.length then
    .ok (groupBytes width chunk_size (s.take (chunk_size * width)),
         s.drop (chunk_size * width))
  else .error .endOfData

/-- The numpy column selection `combined_data[:, byte_columns].ravel()`:
pick the listed columns from every row and flatten row-major.  numpy
raises `IndexError` when a requested column is outside the array's
second axis (of size `width`). -/
def selectColumnsRavel (width : Nat) (rows : List (List Nat)) (cols : List Nat) :
    Except DecodeError (List Nat) :=
  if cols.all (fun c => c < width) then
    .ok ((rows.map (fun r => cols.map (fun c => r.getD c 0))).flatten)
  else .error .invalidOffset

/-- Two's-complement reading of a `size`-byte unsigned value. -/
def toSigned (size v : Nat) : Int :=
  if v < 2 ^ (8 * size - 1) then (v : Int) else (v : Int) - 2 ^ (8 * size)

/-- One sample of the in-place dtype reinterpretation: `size` raw bytes
reassembled at the stream's endianness, signed for signed dtypes. -/
def interpretScalar (t : DaqmxType) (e : Endianness) (bs : List Nat) : Int :=
  if t.signed then toSigned t.size (bytesToNat e bs) else ((bytesToNat e bs : Nat) : Int)

/-- The dtype reinterpretation `this_scaler_data.dtype =
scaler.data_type.nptype.newbyteorder(endianness)`: the flat byte vector
viewed as consecutive `t.size`-byte samples. -/
def reinterpret (t : DaqmxType) (e : Endianness) (flat : List Nat) : List Int :=
  (List.range (flat.length / t.size)).map
    (fun i => interpretScalar t e ((flat.drop (i * t.size)).take t.size))

/-- The per-scaler body of `DaqmxSegment._read_data_chunk`: select the
byte columns `[byte_offset, byte_offset + size)`, ravel, reinterpret at
the segment's endianness and post-process. -/
def scalerColumn (e : Endianness) (width : Nat) (rows : List (List Nat))
    (sc : Scaler) : Except DecodeError (List Int) :=
  (selectColumnsRavel width rows
      (List.range' (Scaler.byte_offset sc) (Scaler.data_type sc).size)).map
    (fun flat => Scaler.postprocess_data sc (reinterpret (Scaler.data_type sc) e flat))

/-- The inner loop over one object's scalers that source from the
current raw buffer, accumulating `(path, scale_id, data)` entries. -/
def collectScalers (e : Endianness) (width : Nat) (rows : List (List Nat))
    (path : String) : List Scaler → Except DecodeError (List (String × Nat × List Int))
  | [] => .ok []
  | sc :: rest => do
    let col ← scalerColumn e width rows sc
    let more ← collectScalers e width rows path rest
    .ok ((path, Scaler.scale_id sc, col) :: more)

/-- The loop over `data_objects` for one raw buffer. -/
def decodeBuffer (e : Endianness) (width : Nat) (rows : List (List Nat))
    (b : Nat) : List DaqmxSegmentObject →
    Except DecodeError (List (String × Nat × List Int))
  | [] => .ok []
  | obj :: rest => do
    let entries ← collectScalers e width rows obj.path
      ((scalersOf obj).filter (fun sc => Scaler.raw_buffer_index sc == b))
    let more ← decodeBuffer e width rows b rest
    .ok (entries ++ more)

/-- The outer loop of `_read_data_chunk` over
`enumerate(raw_data_widths)`: read one interleaved buffer, decode every
scaler sourcing from it, move to the next buffer. -/
def readBuffersLoop (e : Endianness) (chunk_size : Nat)
    (objs : List DaqmxSegmentObject) :
    Nat → List Int → List Nat →
    Except DecodeError (List (String × Nat × List Int))
  | _, [], _ => .ok []
  | b, w :: ws, s => do
    let (rows, rest) ← read_interleaved_segment_bytes w.toNat chunk_size s
    let entries ← decodeBuffer e w.toNat rows b objs
    let more ← readBuffersLoop e chunk_size objs (b + 1) ws rest
    .ok (entries ++ more)

/-- `DaqmxSegment._read_data_chunk`: reject mixed data types before any
read, then take widths and chunk size from the first object and run the
buffer loop.  The result models the `scaler_data` mapping as its list
of `(path, scale_id, data)` assignments in assignment order. -/
def read_data_chunk (e : Endianness) (data_objects : List DaqmxSegmentObject)
    (s : List Nat) : Except DecodeError (List (String × Nat × List Int)) :=
  if ¬ (∀ o ∈ data_objects, o.data_type = TdsType.daqmxRawData) then
    .error .mixedDataTypes
  else
    match data_objects with
    | [] => .error .noObjects
    | obj0 :: _ =>
      match obj0.daqmx_metadata with
      | none => .error .noMetadata
      | some m0 =>
        readBuffersLoop e obj0.number_values data_objects 0 m0.raw_data_widths s

/-- Spec-side column bytes: the bytes `[o, o + w)` of every row,
concatenated in row order (spec section 4.4 step 2b). -/
def columnBytesSpec (o w : Nat) (rows : List (List Nat)) : List Nat :=
  (rows.map (fun r => (r.drop o).take w)).flatten

/-- Spec-side column value for one scaler: its own byte range of every
row of its own buffer, reinterpreted at the declared endianness and
post-processed.  Mentions no other scaler. -/
def specScalerColumn (e : Endianness) (chunk_size width : Nat) (buf : List Nat)
    (sc : Scaler) : List Int :=
  Scaler.postprocess_data sc
    (reinterpret (Scaler.data_type sc) e
      (columnBytesSpec (Scaler.byte_offset sc) (Scaler.data_type sc).size
        (groupBytes width chunk_size buf)))

/-- Spec-side entries contributed by one raw buffer. -/
def specBufferEntries (e : Endianness) (chunk_size width : Nat) (buf : List Nat)
    (b : Nat) (objs : List DaqmxSegmentObject) :
    List (String × Nat × List Int) :=
  (objs.map (fun o =>
    ((scalersOf o).filter (fun sc => Scaler.raw_buffer_index sc == b)).map
      (fun sc => (o.path, Scaler.scale_id sc,
        specScalerColumn e chunk_size width buf sc)))).flatten

/-- Spec-side result of a whole chunk decode: buffer `b` occupies the
byte range of the stream after the first `b` buffers (each buffer `j`
taking `chunk_size * width_j` bytes), and contributes one entry per
scaler sourcing from it. -/
def specChunkEntries (e : Endianness) (chunk_size : Nat) (widths : List Int)
    (objs : List DaqmxSegmentObject) (s : List Nat) :
    List (String × Nat × List Int) :=
  (List.range widths.length).flatMap (fun b =>
    specBufferEntries e chunk_size (widths.getD b 0).toNat
      ((s.drop (chunk_size * ((widths.take b).map Int.toNat).sum)).take
        (chunk_size * (widths.getD b 0).toNat))
      b objs)

/-- Concrete fixture for chunk-size resolution examples: an object with
the given `has_data` flag, `number_values` and a single raw buffer of
the given width. -/
def c4Obj (p : String) (h : Bool) (nv : Nat) (w : Int) : DaqmxSegmentObject :=
  { path := p, has_data := h, data_type := .daqmxRawData, number_values := nv,
    data_size := 0,
    daqmx_metadata := some { data_type := .daqmxRawData,
                             scaler_type := FORMAT_CHANGING_SCALER,
                             dimension := 1, chunk_size := nv,
                             raw_data_widths := [w], scalers := [] } }

/-- Fixture metadata for the end-to-end decode example of the spec: one
raw buffer of width 5, two samples per chunk, a u16 Format-Changing
scaler at byte offset 0 (scale id 7) and a Digital-Line scaler at bit
offset 32 (scale id 9). -/
def c1Meta : DaqMxMetadata :=
  { data_type := .daqmxRawData, scaler_type := FORMAT_CHANGING_SCALER,
    dimension := 1, chunk_size := 2, raw_data_widths := [5],
    scalers := [.formatChanging { scale_id := 7, data_type := .uint16,
                                  raw_buffer_index := 0, raw_byte_offset := 0,
                                  sample_format_bitmap := 0 },
                .digitalLine { scale_id := 9, data_type := .uint8,
                               raw_buffer_index := 0, raw_bit_offset := 32,
                               sample_format_bitmap := 0 }] }

/-- Fixture channel object owning `c1Meta`. -/
def c1Obj : DaqmxSegmentObject :=
  { path := "c", has_data := true, data_type := .daqmxRawData,
    number_values := 2, data_size := 10, daqmx_metadata := some c1Meta }

/-- Fixture chunk bytes: rows `[0x34, 0x12, 0xAA, 0xBB, 0x05]` and
`[0x78, 0x56, 0xCC, 0xDD, 0x02]`. -/
def c1Stream : List Nat := [52, 18, 170, 187, 5, 120, 86, 204, 221, 2]

/-- Fixture metadata with a corrupt scaler: a u16 scaler at byte offset
4 of a width-5 buffer overruns the row by one byte. -/
def c8Meta : DaqMxMetadata :=
  { data_type := .daqmxRawData, scaler_type := FORMAT_CHANGING_SCALER,
    dimension := 1, chunk_size := 2, raw_data_widths := [5],
    scalers := [.formatChanging { scale_id := 7, data_type := .uint16,
                                  raw_buffer_index := 0, raw_byte_offset := 4,
                                  sample_format_bitmap := 0 }] }

/-- Fixture channel object owning `c8Meta`. -/
def c8Obj : DaqmxSegmentObject :=
  { path := "c", has_data := true, data_type := .daqmxRawData,
    number_values := 2, data_size := 10, daqmx_metadata := some c8Meta }

/-! ### Helper lemmas -/

theorem readBytes_ok {k : Nat} {s : List Nat} (h : k ≤ s.length) :
    readBytes k s = .ok (s.take k, s.drop k) := by
  rw [readBytes, if_pos h]

theorem readUint32_cons (e : Endianness) (a0 a1 a2 a3 : Nat) (rest : List Nat) :
    readUint32 e (a0 :: a1 :: a2 :: a3 :: rest) =
      .ok (bytesToNat e [a0, a1, a2, a3], rest) := by
  have h : 4 ≤ (a0 :: a1 :: a2 :: a3 :: rest).length := by
    simp [List.length_cons]
  rw [readUint32, readBytes_ok h]
  rfl

theorem readUint8_cons (a0 : Nat) (rest : List Nat) :
    readUint8 (a0 :: rest) = .ok (a0, rest) := by
  have h : 1 ≤ (a0 :: rest).length := by simp
  rw [readUint8, readBytes_ok h]
  simp [leBytesToNat, Except.map]

theorem DaqmxType.size_pos (t : DaqmxType) : 0 < t.size := by
  cases t <;> simp [DaqmxType.size]

theorem range'_map_getD (r : List Nat) (o w : Nat) (h : o + w ≤ r.length) :
    (List.range' o w).map (fun c => r.getD c 0) = (r.drop o).take w := by
  apply List.ext_getElem
  · simp [List.length_take, List.length_drop]
    omega
  · intro i h1 h2
    have hi : i < w := by simpa [List.length_range'] using (by simpa using h1)
    have ho : o + i < r.length := by omega
    simp only [List.getElem_map, List.getElem_range', List.getElem_take,
      List.getElem_drop]
    rw [List.getD_eq_getElem r 0 (by omega)]
    congr 1
    omega

theorem natBitExtract (m b : Nat) : (m &&& (1 <<< b)) >>> b = (m >>> b) &&& 1 := by
  apply Nat.eq_of_testBit_eq
  intro i
  have h1 : (1 : Nat) <<< b = 2 ^ b := by rw [Nat.shiftLeft_eq, one_mul]
  have h2 : (1 : Nat) = 2 ^ 0 := rfl
  simp only [Nat.testBit_shiftRight, Nat.testBit_and]
  rw [h1, h2, Nat.testBit_two_pow, Nat.testBit_two_pow]
  by_cases hi : i = 0
  · simp [hi]
  · have hb : b ≠ b + i := by omega
    have h0 : 0 ≠ i := by omega
    simp [hb, h0]

theorem natCastLand (m n : Nat) :
    Int.land (m : Int) (n : Int) = ((m &&& n : Nat) : Int) := rfl

theorem natCastShiftRight (m k : Nat) :
    Int.shiftRight (m : Int) k = ((m >>> k : Nat) : Int) := rfl

theorem and_one_le_one (n : Nat) : n &&& 1 ≤ 1 :=
  Nat.and_le_right

theorem exceptBindOk {ε α β : Type} {x : Except ε α} {f : α → Except ε β} {b : β}
    (h : Except.bind x f = .ok b) : ∃ a, x = .ok a ∧ f a = .ok b := by
  cases x with
  | error err => exact absurd h (by simp [Except.bind])
  | ok a => exact ⟨a, rfl, by simpa [Except.bind] using h⟩

theorem exceptBindError {ε α β : Type} (err : ε) (f : α → Except ε β) :
    (Bind.bind (Except.error err) f : Except ε β) = Except.error err := rfl

theorem exceptBindOkRed {ε α β : Type} (a : α) (f : α → Except ε β) :
    (Bind.bind (Except.ok a) f : Except ε β) = f a := rfl

theorem readUint32_eq (e : Endianness) {s : List Nat} (h : 4 ≤ s.length) :
    readUint32 e s = .ok (bytesToNat e (s.take 4), s.drop 4) := by
  rw [readUint32, readBytes_ok h]; rfl

theorem exceptMapOk {ε α β : Type} {f : α → β} {x : Except ε α} {b : β}
    (h : Except.map f x = .ok b) : ∃ a, x = .ok a ∧ f a = b := by
  cases x with
  | error err => exact absurd h (by simp [Except.map])
  | ok a => exact ⟨a, rfl, by simpa [Except.map] using h⟩

theorem readScalers_all {cls} {e : Endianness} (P : Scaler → Prop)
    (hcls : ∀ s sc s', cls e s = .ok (sc, s') → P sc) :
    ∀ k s scs s', readScalers cls e k s = .ok (scs, s') → ∀ sc ∈ scs, P sc := by
  intro k
  induction k with
  | zero =>
    intro s scs s' h sc hsc
    rw [readScalers] at h
    cases h
    simp at hsc
  | succ k ih =>
    intro s scs s' h sc hsc
    rw [readScalers] at h
    obtain ⟨p, h1, h⟩ := exceptBindOk h
    obtain ⟨sc1, t⟩ := p
    obtain ⟨q, h2, h⟩ := exceptBindOk h
    obtain ⟨scs1, u⟩ := q
    cases h
    rcases List.mem_cons.mp hsc with rfl | hmem
    · exact hcls _ _ _ h1
    · exact ih _ _ _ h2 sc hmem

theorem parseDaqMxMetadata_ok_scalers {tds : TdsTable} {e : Endianness} {st : Nat}
    {s : List Nat} {m : DaqMxMetadata} {rest : List Nat}
    (h : parseDaqMxMetadata tds e st s = .ok (m, rest)) :
    ∃ cls k t u, scaler_classes st = some cls ∧
      readScalers cls e k t = .ok (m.scalers, u) := by
  rw [parseDaqMxMetadata] at h
  cases htds : tds 4294967295 with
  | none => rw [htds] at h; simp [exceptBindError] at h
  | some dt =>
    rw [htds] at h
    obtain ⟨dt', hdt, h⟩ := exceptBindOk h
    obtain ⟨p1, h1, h⟩ := exceptBindOk h
    obtain ⟨dim, s1⟩ := p1
    dsimp only at h
    by_cases hdim : dim ≠ 1
    · rw [if_pos hdim] at h; simp at h
    · rw [if_neg hdim] at h
      obtain ⟨p2, h2, h⟩ := exceptBindOk h
      obtain ⟨csz, s2⟩ := p2
      obtain ⟨p3, h3, h⟩ := exceptBindOk h
      obtain ⟨svl, s3⟩ := p3
      dsimp only at h
      cases hcl : scaler_classes st with
      | none => rw [hcl] at h; simp [exceptBindError] at h
      | some cls =>
        rw [hcl] at h
        obtain ⟨cls', hcls, h⟩ := exceptBindOk h
        obtain ⟨p4, h4, h⟩ := exceptBindOk h
        obtain ⟨scs, s4⟩ := p4
        obtain ⟨p5, h5, h⟩ := exceptBindOk h
        obtain ⟨rwl, s5⟩ := p5
        obtain ⟨p6, h6, h⟩ := exceptBindOk h
        obtain ⟨rws, s6⟩ := p6
        cases h
        cases hcls
        exact ⟨cls, svl, s3, s4, rfl, h4⟩

/-! ### Claim theorems -/

/-- C7: `byte_offset()` returns `raw_byte_offset` unchanged for a
Format-Changing scaler, and `raw_bit_offset` divided by 8 with floor
division for a Digital-Line scaler (characterised by the usual floor
bounds). -/
theorem C7_byte_offset (a : DaqMxScaler) (d : DigitalLineScaler) :
    Scaler.byte_offset (.formatChanging a) = a.raw_byte_offset ∧
    Scaler.byte_offset (.digitalLine d) = d.raw_bit_offset / 8 ∧
    8 * Scaler.byte_offset (.digitalLine d) ≤ d.raw_bit_offset ∧
    d.raw_bit_offset < 8 * Scaler.byte_offset (.digitalLine d) + 8 := by
  refine ⟨rfl, rfl, ?_, ?_⟩ <;> simp [Scaler.byte_offset] <;> omega

/-- C6: `DAQMX_TYPES` maps codes 0..5 to u8, i8, u16, i16, u32, i32 and
nothing else; on any unmapped code both scaler record parsers fail with
the `UnrecognizedType` failure instead of producing a scaler. -/
theorem C6_daqmx_type_codes :
    (DAQMX_TYPES 0 = some .uint8 ∧ DAQMX_TYPES 1 = some .int8 ∧
     DAQMX_TYPES 2 = some .uint16 ∧ DAQMX_TYPES 3 = some .int16 ∧
     DAQMX_TYPES 4 = some .uint32 ∧ DAQMX_TYPES 5 = some .int32) ∧
    (∀ c, 6 ≤ c → DAQMX_TYPES c = none) ∧
    (∀ e a0 a1 a2 a3 rest, DAQMX_TYPES (bytesToNat e [a0, a1, a2, a3]) = none →
      parseDaqMxScaler e (a0 :: a1 :: a2 :: a3 :: rest) = .error .unrecognizedType ∧
      parseDigitalLineScaler e (a0 :: a1 :: a2 :: a3 :: rest) =
        .error .unrecognizedType) := by
  refine ⟨⟨rfl, rfl, rfl, rfl, rfl, rfl⟩, ?_, ?_⟩
  · intro c hc
    obtain ⟨d, rfl⟩ : ∃ d, c = d + 6 := ⟨c - 6, by omega⟩
    rfl
  · intro e a0 a1 a2 a3 rest h
    constructor <;>
      simp [parseDaqMxScaler, parseDigitalLineScaler, readUint32_cons, h,
        Except.bind, bind]

/-- Witness for C6: code 6 is unmapped and both record parsers reject a
record starting with it. -/
theorem C6_witness :
    (6 : Nat) ≤ 6 ∧ DAQMX_TYPES 6 = none ∧
    DAQMX_TYPES (bytesToNat .little [6, 0, 0, 0]) = none ∧
    parseDaqMxScaler .little [6, 0, 0, 0] = .error .unrecognizedType ∧
    parseDigitalLineScaler .little [6, 0, 0, 0] = .error .unrecognizedType := by
  have h := C6_daqmx_type_codes
  refine ⟨by decide, h.2.1 6 (by decide), by decide, ?_, ?_⟩
  · exact (h.2.2 .little 6 0 0 0 [] (by decide)).1
  · exact (h.2.2 .little 6 0 0 0 [] (by decide)).2


/-- C2: for a Digital-Line scaler with `raw_bit_offset = k`,
post-processing a decoded column of raw byte values maps every value
`v` in 0..255 elementwise to `(v >>> (k mod 8)) &&& 1` (the source
computes `bit = k mod 8`, `mask = 1 <<< bit`, `(v &&& mask) >>> bit`),
and every output sample is 0 or 1. -/
theorem C2_digital_line_bit_extraction (s : DigitalLineScaler) (col : List Int)
    (h : ∀ v ∈ col, 0 ≤ v ∧ v < 256) :
    Scaler.postprocess_data (.digitalLine s) col =
      col.map (fun v =>
        (((v.toNat >>> (s.raw_bit_offset % 8)) &&& 1 : Nat) : Int)) ∧
    ∀ y ∈ Scaler.postprocess_data (.digitalLine s) col, y = 0 ∨ y = 1 := by
  have key : ∀ v ∈ col,
      Int.shiftRight (Int.land v ((1 <<< (s.raw_bit_offset % 8) : Nat) : Int))
          (s.raw_bit_offset % 8) =
        (((v.toNat >>> (s.raw_bit_offset % 8)) &&& 1 : Nat) : Int) := by
    intro v hv
    obtain ⟨hv0, _⟩ := h v hv
    have hcast : ((v.toNat : Nat) : Int) = v := Int.toNat_of_nonneg hv0
    conv_lhs => rw [← hcast]
    rw [natCastLand, natCastShiftRight, natBitExtract]
  have hmap : Scaler.postprocess_data (.digitalLine s) col =
      col.map (fun v =>
        (((v.toNat >>> (s.raw_bit_offset % 8)) &&& 1 : Nat) : Int)) := by
    rw [Scaler.postprocess_data]
    exact List.map_congr_left key
  refine ⟨hmap, ?_⟩
  intro y hy
  rw [hmap] at hy
  obtain ⟨v, _, rfl⟩ := List.mem_map.mp hy
  have hle : (v.toNat >>> (s.raw_bit_offset % 8)) &&& 1 ≤ 1 := and_one_le_one _
  interval_cases h : ((v.toNat >>> (s.raw_bit_offset % 8)) &&& 1) <;> simp

/-- Witness for C2 at a concrete scaler (`raw_bit_offset = 11`, so bit
3 of each byte) and column `[5, 200]`: bit 3 of 5 is 0, bit 3 of 200
(0xC8) is 1. -/
theorem C2_witness :
    (∀ v ∈ [(5 : Int), 200], 0 ≤ v ∧ v < 256) ∧
    (Scaler.postprocess_data
        (.digitalLine { scale_id := 9, data_type := .uint8,
                        raw_buffer_index := 0, raw_bit_offset := 11,
                        sample_format_bitmap := 0 }) [5, 200] =
      [(0 : Int), 1] ∧
     ∀ y ∈ Scaler.postprocess_data
        (.digitalLine { scale_id := 9, data_type := .uint8,
                        raw_buffer_index := 0, raw_bit_offset := 11,
                        sample_format_bitmap := 0 }) [5, 200], y = 0 ∨ y = 1) := by
  have h : ∀ v ∈ [(5 : Int), 200], 0 ≤ v ∧ v < 256 := by decide
  have hthm := C2_digital_line_bit_extraction
    { scale_id := 9, data_type := .uint8, raw_buffer_index := 0,
      raw_bit_offset := 11, sample_format_bitmap := 0 } [5, 200] h
  refine ⟨h, ?_, hthm.2⟩
  rw [hthm.1]
  decide

/-- C5: the scaler record layout is selected solely by the raw-data
index header: `0x00001269` dispatches to the Format-Changing record
parser (five 4-byte fields: data-type code, `raw_buffer_index`,
`raw_byte_offset`, `sample_format_bitmap`, `scale_id`; 20 bytes), and
`0x0000126A` to the Digital-Line record parser (same field order but a
1-byte `sample_format_bitmap`; 17 bytes); metadata parsed under either
header contains only scalers of the corresponding variant. -/
theorem C5_scaler_record_layouts :
    (scaler_classes FORMAT_CHANGING_SCALER =
      some (fun e s => (parseDaqMxScaler e s).map
        (fun p => (.formatChanging p.1, p.2)))) ∧
    (scaler_classes DIGITAL_LINE_SCALER =
      some (fun e s => (parseDigitalLineScaler e s).map
        (fun p => (.digitalLine p.1, p.2)))) ∧
    (∀ e t a0 a1 a2 a3 a4 a5 a6 a7 a8 a9 a10 a11 a12 a13 a14 a15 a16 a17 a18 a19
        (rest : List Nat),
      DAQMX_TYPES (bytesToNat e [a0, a1, a2, a3]) = some t →
      parseDaqMxScaler e (a0 :: a1 :: a2 :: a3 :: a4 :: a5 :: a6 :: a7 :: a8 ::
          a9 :: a10 :: a11 :: a12 :: a13 :: a14 :: a15 :: a16 :: a17 :: a18 ::
          a19 :: rest) =
        .ok ({ scale_id := bytesToNat e [a16, a17, a18, a19], data_type := t,
               raw_buffer_index := bytesToNat e [a4, a5, a6, a7],
               raw_byte_offset := bytesToNat e [a8, a9, a10, a11],
               sample_format_bitmap := bytesToNat e [a12, a13, a14, a15] },
             rest)) ∧
    (∀ e t a0 a1 a2 a3 a4 a5 a6 a7 a8 a9 a10 a11 a12 a13 a14 a15 a16
        (rest : List Nat),
      DAQMX_TYPES (bytesToNat e [a0, a1, a2, a3]) = some t →
      parseDigitalLineScaler e (a0 :: a1 :: a2 :: a3 :: a4 :: a5 :: a6 :: a7 ::
          a8 :: a9 :: a10 :: a11 :: a12 :: a13 :: a14 :: a15 :: a16 :: rest) =
        .ok ({ scale_id := bytesToNat e [a13, a14, a15, a16], data_type := t,
               raw_buffer_index := bytesToNat e [a4, a5, a6, a7],
               raw_bit_offset := bytesToNat e [a8, a9, a10, a11],
               sample_format_bitmap := a12 }, rest)) ∧
    (∀ tds e s m rest,
      parseDaqMxMetadata tds e FORMAT_CHANGING_SCALER s = .ok (m, rest) →
      ∀ sc ∈ m.scalers, ∃ x, sc = .formatChanging x) ∧
    (∀ tds e s m rest,
      parseDaqMxMetadata tds e DIGITAL_LINE_SCALER s = .ok (m, rest) →
      ∀ sc ∈ m.scalers, ∃ x, sc = .digitalLine x) := by
  have hfc : scaler_classes FORMAT_CHANGING_SCALER =
      some (fun e s => (parseDaqMxScaler e s).map
        (fun p => (.formatChanging p.1, p.2))) := rfl
  have hdl : scaler_classes DIGITAL_LINE_SCALER =
      some (fun e s => (parseDigitalLineScaler e s).map
        (fun p => (.digitalLine p.1, p.2))) := rfl
  refine ⟨hfc, hdl, ?_, ?_, ?_, ?_⟩
  · intro e t a0 a1 a2 a3 a4 a5 a6 a7 a8 a9 a10 a11 a12 a13 a14 a15 a16 a17 a18
      a19 rest ht
    simp [parseDaqMxScaler, readUint32_cons, ht, Except.bind, bind]
  · intro e t a0 a1 a2 a3 a4 a5 a6 a7 a8 a9 a10 a11 a12 a13 a14 a15 a16 rest ht
    simp [parseDigitalLineScaler, readUint32_cons, readUint8_cons, ht,
      Except.bind, bind]
  · intro tds e s m rest h sc hsc
    obtain ⟨cls, k, t, u, hcl, hrd⟩ := parseDaqMxMetadata_ok_scalers h
    rw [hfc] at hcl
    cases hcl
    refine readScalers_all (fun sc => ∃ x, sc = .formatChanging x) ?_ k t
      m.scalers u hrd sc hsc
    intro s' sc' s'' hp
    obtain ⟨a, _, ha⟩ := exceptMapOk hp
    cases ha
    exact ⟨a.1, rfl⟩
  · intro tds e s m rest h sc hsc
    obtain ⟨cls, k, t, u, hcl, hrd⟩ := parseDaqMxMetadata_ok_scalers h
    rw [hdl] at hcl
    cases hcl
    refine readScalers_all (fun sc => ∃ x, sc = .digitalLine x) ?_ k t
      m.scalers u hrd sc hsc
    intro s' sc' s'' hp
    obtain ⟨a, _, ha⟩ := exceptMapOk hp
    cases ha
    exact ⟨a.1, rfl⟩

/-- Witness for C5: concrete little-endian record bytes for both
variants, 20 and 17 bytes respectively, with one trailing byte left
over. -/
theorem C5_witness :
    DAQMX_TYPES (bytesToNat .little [3, 0, 0, 0]) = some .int16 ∧
    parseDaqMxScaler .little
        [3, 0, 0, 0, 1, 0, 0, 0, 2, 0, 0, 0, 9, 0, 0, 0, 7, 0, 0, 0, 99] =
      .ok ({ scale_id := 7, data_type := .int16, raw_buffer_index := 1,
             raw_byte_offset := 2, sample_format_bitmap := 9 }, [99]) ∧
    parseDigitalLineScaler .little
        [0, 0, 0, 0, 1, 0, 0, 0, 32, 0, 0, 0, 5, 7, 0, 0, 0, 99] =
      .ok ({ scale_id := 7, data_type := .uint8, raw_buffer_index := 1,
             raw_bit_offset := 32, sample_format_bitmap := 5 }, [99]) := by
  have h := C5_scaler_record_layouts
  refine ⟨by decide, ?_, ?_⟩
  · have hx := h.2.2.1 .little .int16 3 0 0 0 1 0 0 0 2 0 0 0 9 0 0 0 7 0 0 0
      [99] (by decide)
    simpa [bytesToNat, leBytesToNat] using hx
  · have hx := h.2.2.2.1 .little .uint8 0 0 0 0 1 0 0 0 32 0 0 0 5 7 0 0 0
      [99] (by decide)
    simpa [bytesToNat, leBytesToNat] using hx

/-- Counterexample for C4 as stated: an object whose `has_data` flag is
unset is skipped by `_get_chunk_size` even though its
`number_values * total_raw_data_width` is the first nonzero product, so
the resolved size is the second object's 256, not the 512 the first
object would give under the claim's rule. -/
theorem C4_counterexample :
    get_chunk_size [c4Obj "a" false 1 512, c4Obj "b" true 1 256] = 256 ∧
    chunkSizeClaimC4 [c4Obj "a" false 1 512, c4Obj "b" true 1 256] = 512 ∧
    (256 : Int) ≠ 512 := by
  refine ⟨?_, ?_, by decide⟩ <;>
    simp [get_chunk_size, chunkSizeClaimC4, productOf, total_raw_data_width,
      c4Obj]

/-- C4 (amended): `_get_chunk_size` scans objects in order and returns
the first positive `number_values * total_raw_data_width` among objects
whose `has_data` flag is set, 0 if there is none; when every object has
data and no product is negative this coincides with the claim's
first-nonzero rule. -/
theorem C4_chunk_size_resolution (objs : List DaqmxSegmentObject)
    (hd : ∀ o ∈ objs, o.has_data = true)
    (hp : ∀ o ∈ objs, 0 ≤ productOf o) :
    get_chunk_size objs = chunkSizeClaimC4 objs := by
  induction objs with
  | nil => rfl
  | cons o rest ih =>
    have ho : o.has_data = true := hd o (List.mem_cons_self o rest)
    have hpo : 0 ≤ productOf o := hp o (List.mem_cons_self o rest)
    have htail : get_chunk_size rest = chunkSizeClaimC4 rest :=
      ih (fun x hx => hd x (List.mem_cons_of_mem o hx))
        (fun x hx => hp x (List.mem_cons_of_mem o hx))
    rw [get_chunk_size, chunkSizeClaimC4]
    by_cases hpos : 0 < productOf o
    · rw [if_pos ⟨ho, hpos⟩, if_pos (by omega)]
    · rw [if_neg (by tauto), if_neg (by omega), htail]

/-- Witness for C4's amended theorem: four objects, all with data, with
products 0, 0, 512, 256; the resolved chunk size is 512, the first
nonzero product, under both the source rule and the claim's rule. -/
theorem C4_witness :
    get_chunk_size [c4Obj "a" true 0 7, c4Obj "b" true 4 0,
        c4Obj "c" true 256 2, c4Obj "d" true 256 1] =
      chunkSizeClaimC4 [c4Obj "a" true 0 7, c4Obj "b" true 4 0,
        c4Obj "c" true 256 2, c4Obj "d" true 256 1] ∧
    chunkSizeClaimC4 [c4Obj "a" true 0 7, c4Obj "b" true 4 0,
        c4Obj "c" true 256 2, c4Obj "d" true 256 1] = 512 := by
  constructor
  · exact C4_chunk_size_resolution _ (by decide) (by decide)
  · simp [chunkSizeClaimC4, productOf, total_raw_data_width, c4Obj]

/-- Counterexample for C9 as stated: a parsed metadata block whose
single width field carries the unsigned value `2 ^ 31 = 2147483648`
stores `-2147483648` in `raw_data_widths` (the unsigned read is
assigned into an `np.int32` array), so the stored width is not the
unsigned value read. -/
theorem C9_counterexample :
    parseDaqMxMetadata
        (fun c => if c = 4294967295 then some .daqmxRawData else none)
        .little FORMAT_CHANGING_SCALER
        [1, 0, 0, 0, 2, 0, 0, 0, 0, 0, 0, 0, 0, 0, 0, 0, 1, 0, 0, 0,
         0, 0, 0, 128] =
      .ok ({ data_type := .daqmxRawData,
             scaler_type := FORMAT_CHANGING_SCALER, dimension := 1,
             chunk_size := 2, raw_data_widths := [-2147483648],
             scalers := [] }, []) ∧
    bytesToNat .little [0, 0, 0, 128] = 2147483648 ∧
    ((-2147483648 : Int) ≠ (2147483648 : Int)) := by
  refine ⟨rfl, by decide, by decide⟩

/-- C9 (amended): the width array read by the metadata parser has
exactly the length given by the preceding length field and holds, in
stream order, the 4-byte unsigned values read, each wrapped into a
signed 32-bit integer by the `np.int32` storage; a stored width equals
the unsigned value read exactly when that value is below `2 ^ 31`. -/
theorem C9_raw_data_widths (e : Endianness) :
    (∀ k s, 4 * k ≤ s.length →
      readRawDataWidths e k s =
        .ok ((List.range k).map
            (fun i => int32wrap (bytesToNat e ((s.drop (4 * i)).take 4))),
          s.drop (4 * k))) ∧
    (∀ v : Nat, v < 4294967296 → (int32wrap v = (v : Int) ↔ v < 2147483648)) := by
  constructor
  · intro k
    induction k with
    | zero =>
      intro s h
      simp [readRawDataWidths]
    | succ k ih =>
      intro s h
      have hs4 : 4 ≤ s.length := by omega
      rw [readRawDataWidths, readUint32_eq e hs4, exceptBindOkRed]
      dsimp only
      rw [ih (s.drop 4) (by simp [List.length_drop]; omega), exceptBindOkRed]
      dsimp only
      rw [List.range_succ_eq_map, List.map_cons, List.map_map]
      congr 1
      rw [Prod.mk.injEq]
      refine ⟨?_, ?_⟩
      · rw [List.cons.injEq]
        refine ⟨by simp, ?_⟩
        apply List.map_congr_left
        intro i _
        simp only [Function.comp_apply]
        rw [List.drop_drop, show 4 + 4 * i = 4 * (i + 1) from by ring]
      · rw [List.drop_drop, show 4 + 4 * k = 4 * (k + 1) from by ring]
  · intro v hv
    rw [int32wrap, Nat.mod_eq_of_lt hv]
    by_cases h31 : v < 2147483648
    · simp [h31]
    · rw [if_neg h31]
      constructor
      · intro heq
        omega
      · intro hlt
        omega

/-- Witness for C9's amended theorem: two widths 1 and `2 ^ 31` are
stored as `[1, -2147483648]`, and `int32wrap` is the identity on the
small value 5. -/
theorem C9_witness :
    4 * 2 ≤ ([1, 0, 0, 0, 0, 0, 0, 128] : List Nat).length ∧
    readRawDataWidths .little 2 [1, 0, 0, 0, 0, 0, 0, 128] =
      .ok ([1, -2147483648], []) ∧
    (5 : Nat) < 4294967296 ∧ (int32wrap 5 = (5 : Int) ↔ (5 : Nat) < 2147483648) := by
  refine ⟨by decide, ?_, by decide, (C9_raw_data_widths .little).2 5 (by decide)⟩
  have h := (C9_raw_data_widths .little).1 2 [1, 0, 0, 0, 0, 0, 0, 128]
    (by decide)
  rw [h]
  rfl

/-- C10: with a recognised DAQmx raw-data index header, an outer
data-type value outside the generic TDMS type table makes
`read_raw_data_index` fail with the unrecognised-data-type `KeyError`
for every continuation of the stream (in particular with no metadata
bytes at all, so the failure precedes any DAQmx metadata read); when the
outer value is in the table the result does not depend on it at all,
and on success the object's final `data_type` is the parsed metadata's
own derived type. -/
theorem C10_outer_data_type :
    (∀ (tds : TdsTable) e obj header a0 a1 a2 a3 (rest : List Nat),
      (header = FORMAT_CHANGING_SCALER ∨ header = DIGITAL_LINE_SCALER) →
      tds (bytesToNat e [a0, a1, a2, a3]) = none →
      read_raw_data_index tds e obj header (a0 :: a1 :: a2 :: a3 :: rest) =
        .error .unrecognisedDataType) ∧
    (∀ (tds : TdsTable) e obj header b0 b1 b2 b3 c0 c1 c2 c3
        (rest : List Nat) t1 t2,
      tds (bytesToNat e [b0, b1, b2, b3]) = some t1 →
      tds (bytesToNat e [c0, c1, c2, c3]) = some t2 →
      read_raw_data_index tds e obj header (b0 :: b1 :: b2 :: b3 :: rest) =
        read_raw_data_index tds e obj header (c0 :: c1 :: c2 :: c3 :: rest)) ∧
    (∀ (tds : TdsTable) e obj header a0 a1 a2 a3 (rest : List Nat) obj' s',
      read_raw_data_index tds e obj header (a0 :: a1 :: a2 :: a3 :: rest) =
        .ok (obj', s') →
      ∃ m mrest, parseDaqMxMetadata tds e header rest = .ok (m, mrest) ∧
        obj'.data_type = m.data_type ∧ obj'.number_values = m.chunk_size ∧
        obj'.daqmx_metadata = some m) := by
  refine ⟨?_, ?_, ?_⟩
  · intro tds e obj header a0 a1 a2 a3 rest hh htds
    rw [read_raw_data_index, if_neg (by tauto)]
    rw [readUint32_cons, exceptBindOkRed]
    dsimp only
    rw [htds]
    rfl
  · intro tds e obj header b0 b1 b2 b3 c0 c1 c2 c3 rest t1 t2 hb hc
    by_cases hh : header ≠ FORMAT_CHANGING_SCALER ∧ header ≠ DIGITAL_LINE_SCALER
    · rw [read_raw_data_index, if_pos hh, read_raw_data_index, if_pos hh]
    · rw [read_raw_data_index, if_neg hh, read_raw_data_index, if_neg hh]
      rw [readUint32_cons, exceptBindOkRed, readUint32_cons, exceptBindOkRed]
      dsimp only
      rw [hb, hc]
      rfl
  · intro tds e obj header a0 a1 a2 a3 rest obj' s' h
    by_cases hh : header ≠ FORMAT_CHANGING_SCALER ∧ header ≠ DIGITAL_LINE_SCALER
    · rw [read_raw_data_index, if_pos hh] at h
      exact absurd h (by simp)
    · rw [read_raw_data_index, if_neg hh, readUint32_cons, exceptBindOkRed] at h
      dsimp only at h
      cases htds : tds (bytesToNat e [a0, a1, a2, a3]) with
      | none => rw [htds] at h; simp [exceptBindError] at h
      | some t =>
        rw [htds] at h
        obtain ⟨t', ht', h⟩ := exceptBindOk h
        obtain ⟨pm, hpm, h⟩ := exceptBindOk h
        obtain ⟨m, mrest⟩ := pm
        cases h
        exact ⟨m, mrest, hpm, rfl, rfl, rfl⟩

/-- Witness for C10: a two-entry table recognising only the DAQmx code
`0xFFFFFFFF` and the code 3; outer value 7 is rejected with no metadata
bytes present, and outer values 3 and `0xFFFFFFFF` give identical
results. -/
theorem C10_witness :
    ((fun c => if c = 4294967295 then some TdsType.daqmxRawData
               else if c = 3 then some (TdsType.generic 3) else none) :
        TdsTable) (bytesToNat .little [7, 0, 0, 0]) = none ∧
    read_raw_data_index
        (fun c => if c = 4294967295 then some TdsType.daqmxRawData
                  else if c = 3 then some (TdsType.generic 3) else none)
        .little (c4Obj "w" true 0 0) FORMAT_CHANGING_SCALER [7, 0, 0, 0] =
      .error .unrecognisedDataType ∧
    read_raw_data_index
        (fun c => if c = 4294967295 then some TdsType.daqmxRawData
                  else if c = 3 then some (TdsType.generic 3) else none)
        .little (c4Obj "w" true 0 0) FORMAT_CHANGING_SCALER
        (3 :: 0 :: 0 :: 0 :: [1, 0, 0, 0, 2, 0, 0, 0, 0, 0, 0, 0, 0, 0, 0, 0,
         1, 0, 0, 0, 4, 0, 0, 0]) =
      read_raw_data_index
        (fun c => if c = 4294967295 then some TdsType.daqmxRawData
                  else if c = 3 then some (TdsType.generic 3) else none)
        .little (c4Obj "w" true 0 0) FORMAT_CHANGING_SCALER
        (255 :: 255 :: 255 :: 255 :: [1, 0, 0, 0, 2, 0, 0, 0, 0, 0, 0, 0, 0,
         0, 0, 0, 1, 0, 0, 0, 4, 0, 0, 0]) := by
  refine ⟨by decide, ?_, ?_⟩
  · exact C10_outer_data_type.1 _ .little (c4Obj "w" true 0 0)
      FORMAT_CHANGING_SCALER 7 0 0 0 [] (Or.inl rfl) (by decide)
  · exact C10_outer_data_type.2.1 _ .little (c4Obj "w" true 0 0)
      FORMAT_CHANGING_SCALER 3 0 0 0 255 255 255 255 _
      (TdsType.generic 3) TdsType.daqmxRawData (by decide) (by decide)

theorem scalerColumn_error {e : Endianness} {width : Nat}
    {rows : List (List Nat)} {sc : Scaler} {err : DecodeError}
    (h : scalerColumn e width rows sc = .error err) : err = .invalidOffset := by
  rw [scalerColumn, selectColumnsRavel] at h
  split at h
  · simp [Except.map] at h
  · simp [Except.map] at h
    exact h.symm

theorem collectScalers_error {e : Endianness} {width : Nat}
    {rows : List (List Nat)} {path : String} :
    ∀ {scs : List Scaler} {err : DecodeError},
      collectScalers e width rows path scs = .error err →
      err = .invalidOffset := by
  intro scs
  induction scs with
  | nil => intro err h; rw [collectScalers] at h; cases h
  | cons sc rest ih =>
    intro err h
    rw [collectScalers] at h
    cases h1 : scalerColumn e width rows sc with
    | error e1 =>
      rw [h1, exceptBindError] at h
      cases h
      exact scalerColumn_error h1
    | ok col =>
      rw [h1, exceptBindOkRed] at h
      cases h2 : collectScalers e width rows path rest with
      | error e2 =>
        rw [h2, exceptBindError] at h
        cases h
        exact ih h2
      | ok more => rw [h2, exceptBindOkRed] at h; cases h

theorem decodeBuffer_error {e : Endianness} {width : Nat}
    {rows : List (List Nat)} {b : Nat} :
    ∀ {objs : List DaqmxSegmentObject} {err : DecodeError},
      decodeBuffer e width rows b objs = .error err → err = .invalidOffset := by
  intro objs
  induction objs with
  | nil => intro err h; rw [decodeBuffer] at h; cases h
  | cons obj rest ih =>
    intro err h
    rw [decodeBuffer] at h
    cases h1 : collectScalers e width rows obj.path
        ((scalersOf obj).filter (fun sc => Scaler.raw_buffer_index sc == b)) with
    | error e1 =>
      rw [h1, exceptBindError] at h
      cases h
      exact collectScalers_error h1
    | ok entries =>
      rw [h1, exceptBindOkRed] at h
      cases h2 : decodeBuffer e width rows b rest with
      | error e2 =>
        rw [h2, exceptBindError] at h
        cases h
        exact ih h2
      | ok more => rw [h2, exceptBindOkRed] at h; cases h

theorem readBuffersLoop_error {e : Endianness} {n : Nat}
    {objs : List DaqmxSegmentObject} :
    ∀ {ws : List Int} {b : Nat} {s : List Nat} {err : DecodeError},
      readBuffersLoop e n objs b ws s = .error err →
      err = .endOfData ∨ err = .invalidOffset := by
  intro ws
  induction ws with
  | nil => intro b s err h; rw [readBuffersLoop] at h; cases h
  | cons w rest ih =>
    intro b s err h
    rw [readBuffersLoop] at h
    cases h1 : read_interleaved_segment_bytes w.toNat n s with
    | error e1 =>
      rw [h1, exceptBindError] at h
      cases h
      rw [read_interleaved_segment_bytes] at h1
      split at h1
      · cases h1
      · cases h1; exact Or.inl rfl
    | ok p =>
      rw [h1, exceptBindOkRed] at h
      dsimp only at h
      cases h2 : decodeBuffer e w.toNat p.1 b objs with
      | error e2 =>
        rw [h2, exceptBindError] at h
        cases h
        exact Or.inr (decodeBuffer_error h2)
      | ok entries =>
        rw [h2, exceptBindOkRed] at h
        cases h3 : readBuffersLoop e n objs (b + 1) rest p.2 with
        | error e3 =>
          rw [h3, exceptBindError] at h
          cases h
          exact ih h3
        | ok more => rw [h3, exceptBindOkRed] at h; cases h

/-- C3: the mixed-data-type check runs before any byte is consumed:
with any non-DAQmx object present the decoder fails with the
mixed-data-types error on every stream, including the empty one, and
with only DAQmx objects that error is never produced. -/
theorem C3_mixed_data_types (e : Endianness) (objs : List DaqmxSegmentObject)
    (s : List Nat) :
    ((∃ o ∈ objs, o.data_type ≠ TdsType.daqmxRawData) →
      read_data_chunk e objs s = .error .mixedDataTypes) ∧
    ((∀ o ∈ objs, o.data_type = TdsType.daqmxRawData) →
      read_data_chunk e objs s ≠ .error .mixedDataTypes) := by
  constructor
  · intro hbad
    rw [read_data_chunk.eq_def, if_pos]
    intro hall
    obtain ⟨o, ho, hne⟩ := hbad
    exact hne (hall o ho)
  · intro hall
    rw [read_data_chunk.eq_def, if_neg (fun hn => hn hall)]
    cases objs with
    | nil => simp
    | cons obj0 rest =>
      dsimp only
      cases hm : obj0.daqmx_metadata with
      | none => simp
      | some m0 =>
        intro h
        rcases readBuffersLoop_error h with h1 | h1 <;> cases h1

/-- Witness for C3: a one-object segment with a non-DAQmx data type is
rejected, and the same object marked as DAQmx raw data is not rejected
with the mixed-data-types error, both on the empty stream. -/
theorem C3_witness :
    (∃ o ∈ [{ path := "a", has_data := true,
              data_type := TdsType.generic 3, number_values := 0,
              data_size := 0, daqmx_metadata := none : DaqmxSegmentObject }],
        o.data_type ≠ TdsType.daqmxRawData) ∧
    read_data_chunk .little
        [{ path := "a", has_data := true, data_type := TdsType.generic 3,
           number_values := 0, data_size := 0,
           daqmx_metadata := none : DaqmxSegmentObject }] [] =
      .error .mixedDataTypes ∧
    read_data_chunk .little [c4Obj "a" true 0 0] [] ≠
      .error .mixedDataTypes := by
  refine ⟨by decide, ?_, ?_⟩
  · exact (C3_mixed_data_types .little _ []).1 (by decide)
  · exact (C3_mixed_data_types .little _ []).2 (by decide)

theorem flatMap_congr {α β : Type} {l : List α} {f g : α → List β}
    (h : ∀ a ∈ l, f a = g a) : l.flatMap f = l.flatMap g := by
  induction l with
  | nil => rfl
  | cons a rest ih =>
    rw [List.flatMap_cons, List.flatMap_cons,
      h a (List.mem_cons_self a rest),
      ih (fun x hx => h x (List.mem_cons_of_mem a hx))]

theorem groupBytes_length {width n : Nat} {buf : List Nat}
    (h : buf.length = n * width) :
    ∀ r ∈ groupBytes width n buf, r.length = width := by
  intro r hr
  rw [groupBytes] at hr
  obtain ⟨i, hi, rfl⟩ := List.mem_map.mp hr
  have hi' : i < n := List.mem_range.mp hi
  have hmul : width + i * width ≤ n * width := by
    calc width + i * width = (i + 1) * width := by ring
    _ ≤ n * width := Nat.mul_le_mul_right width (by omega)
  rw [List.length_take, List.length_drop, h]
  exact min_eq_left (by omega)

theorem selectColumnsRavel_ok {width : Nat} {rows : List (List Nat)}
    {cols : List Nat} (h : ∀ c ∈ cols, c < width) :
    selectColumnsRavel width rows cols =
      .ok ((rows.map (fun r => cols.map (fun c => r.getD c 0))).flatten) := by
  rw [selectColumnsRavel, if_pos (by simpa [List.all_eq_true] using h)]

theorem selectColumnsRavel_ok_inv {width : Nat} {rows : List (List Nat)}
    {cols : List Nat} {v : List Nat}
    (h : selectColumnsRavel width rows cols = .ok v) : ∀ c ∈ cols, c < width := by
  rw [selectColumnsRavel] at h
  split at h
  next hcond => simpa [List.all_eq_true] using hcond
  next hcond => cases h

theorem scalerColumn_ok {e : Endianness} {width : Nat}
    {rows : List (List Nat)} {sc : Scaler}
    (hrows : ∀ r ∈ rows, r.length = width)
    (hin : Scaler.byte_offset sc + (Scaler.data_type sc).size ≤ width) :
    scalerColumn e width rows sc =
      .ok (Scaler.postprocess_data sc (reinterpret (Scaler.data_type sc) e
        (columnBytesSpec (Scaler.byte_offset sc) (Scaler.data_type sc).size
          rows))) := by
  rw [scalerColumn, selectColumnsRavel_ok (fun c hc => by
    rw [List.mem_range'_1] at hc
    omega)]
  show Except.ok _ = _
  congr 2
  rw [columnBytesSpec]
  congr 1
  apply List.map_congr_left
  intro r hr
  exact range'_map_getD r _ _ (by rw [hrows r hr]; exact hin)

theorem scalerColumn_ok_inv {e : Endianness} {width : Nat}
    {rows : List (List Nat)} {sc : Scaler} {col : List Int}
    (h : scalerColumn e width rows sc = .ok col) :
    Scaler.byte_offset sc + (Scaler.data_type sc).size ≤ width := by
  rw [scalerColumn] at h
  obtain ⟨flat, hsel, _⟩ := exceptMapOk h
  have hall := selectColumnsRavel_ok_inv hsel
  have hpos := DaqmxType.size_pos (Scaler.data_type sc)
  have := hall (Scaler.byte_offset sc + (Scaler.data_type sc).size - 1)
    (List.mem_range'_1.mpr ⟨by omega, by omega⟩)
  omega

theorem collectScalers_ok {e : Endianness} {width : Nat}
    {rows : List (List Nat)} {path : String}
    (hrows : ∀ r ∈ rows, r.length = width) :
    ∀ {scs : List Scaler},
      (∀ sc ∈ scs, Scaler.byte_offset sc + (Scaler.data_type sc).size ≤ width) →
      collectScalers e width rows path scs =
        .ok (scs.map (fun sc => (path, Scaler.scale_id sc,
          Scaler.postprocess_data sc (reinterpret (Scaler.data_type sc) e
            (columnBytesSpec (Scaler.byte_offset sc)
              (Scaler.data_type sc).size rows))))) := by
  intro scs
  induction scs with
  | nil => intro _; rfl
  | cons sc rest ih =>
    intro hin
    rw [collectScalers,
      scalerColumn_ok hrows (hin sc (List.mem_cons_self sc rest)),
      exceptBindOkRed,
      ih (fun x hx => hin x (List.mem_cons_of_mem sc hx)), exceptBindOkRed]
    rfl

theorem collectScalers_ok_inv {e : Endianness} {width : Nat}
    {rows : List (List Nat)} {path : String} :
    ∀ {scs : List Scaler} {v},
      collectScalers e width rows path scs = .ok v →
      ∀ sc ∈ scs, Scaler.byte_offset sc + (Scaler.data_type sc).size ≤ width := by
  intro scs
  induction scs with
  | nil => intro v _ sc hsc; simp at hsc
  | cons sc0 rest ih =>
    intro v h sc hsc
    rw [collectScalers] at h
    obtain ⟨col, hcol, h⟩ := exceptBindOk h
    obtain ⟨more, hmore, _⟩ := exceptBindOk h
    rcases List.mem_cons.mp hsc with rfl | hmem
    · exact scalerColumn_ok_inv hcol
    · exact ih hmore sc hmem

theorem decodeBuffer_ok {e : Endianness} {width : Nat}
    {rows : List (List Nat)} {b : Nat}
    (hrows : ∀ r ∈ rows, r.length = width) :
    ∀ {objs : List DaqmxSegmentObject},
      (∀ o ∈ objs, ∀ sc ∈ scalersOf o, Scaler.raw_buffer_index sc = b →
        Scaler.byte_offset sc + (Scaler.data_type sc).size ≤ width) →
      decodeBuffer e width rows b objs =
        .ok ((objs.map (fun o =>
          ((scalersOf o).filter
              (fun sc => Scaler.raw_buffer_index sc == b)).map
            (fun sc => (o.path, Scaler.scale_id sc,
              Scaler.postprocess_data sc (reinterpret (Scaler.data_type sc) e
                (columnBytesSpec (Scaler.byte_offset sc)
                  (Scaler.data_type sc).size rows)))))).flatten) := by
  intro objs
  induction objs with
  | nil => intro _; rfl
  | cons obj rest ih =>
    intro hin
    have h1 : ∀ sc ∈ (scalersOf obj).filter
        (fun sc => Scaler.raw_buffer_index sc == b),
        Scaler.byte_offset sc + (Scaler.data_type sc).size ≤ width := by
      intro sc hsc
      obtain ⟨hmem, hb⟩ := List.mem_filter.mp hsc
      exact hin obj (List.mem_cons_self obj rest) sc hmem
        (by simpa using hb)
    have h2 : ∀ o ∈ rest, ∀ sc ∈ scalersOf o,
        Scaler.raw_buffer_index sc = b →
        Scaler.byte_offset sc + (Scaler.data_type sc).size ≤ width :=
      fun o ho => hin o (List.mem_cons_of_mem obj ho)
    rw [decodeBuffer, collectScalers_ok hrows h1, exceptBindOkRed, ih h2,
      exceptBindOkRed]
    rfl

theorem decodeBuffer_ok_inv {e : Endianness} {width : Nat}
    {rows : List (List Nat)} {b : Nat} :
    ∀ {objs : List DaqmxSegmentObject} {v},
      decodeBuffer e width rows b objs = .ok v →
      ∀ o ∈ objs, ∀ sc ∈ scalersOf o, Scaler.raw_buffer_index sc = b →
        Scaler.byte_offset sc + (Scaler.data_type sc).size ≤ width := by
  intro objs
  induction objs with
  | nil => intro v _ o ho; simp at ho
  | cons obj rest ih =>
    intro v h o ho sc hsc hb
    rw [decodeBuffer] at h
    obtain ⟨entries, hent, h⟩ := exceptBindOk h
    obtain ⟨more, hmore, _⟩ := exceptBindOk h
    rcases List.mem_cons.mp ho with rfl | hmem
    · exact collectScalers_ok_inv hent sc
        (List.mem_filter.mpr ⟨hsc, by simpa using hb⟩)
    · exact ih hmore o hmem sc hsc hb

theorem readBuffersLoop_ok {e : Endianness} {n : Nat}
    {objs : List DaqmxSegmentObject} :
    ∀ (ws : List Int) (b : Nat) (s : List Nat),
      n * (ws.map Int.toNat).sum ≤ s.length →
      (∀ o ∈ objs, ∀ sc ∈ scalersOf o, ∀ j, j < ws.length →
        Scaler.raw_buffer_index sc = b + j →
        Scaler.byte_offset sc + (Scaler.data_type sc).size ≤
          (ws.getD j 0).toNat) →
      readBuffersLoop e n objs b ws s =
        .ok ((List.range ws.length).flatMap (fun j =>
          specBufferEntries e n (ws.getD j 0).toNat
            ((s.drop (n * ((ws.take j).map Int.toNat).sum)).take
              (n * (ws.getD j 0).toNat)) (b + j) objs)) := by
  intro ws
  induction ws with
  | nil => intro b s _ _; rfl
  | cons w rest ih =>
    intro b s hlen hin
    have hsum : ((w :: rest).map Int.toNat).sum =
        w.toNat + (rest.map Int.toNat).sum := by
      rw [List.map_cons, List.sum_cons]
    rw [hsum, Nat.mul_add] at hlen
    have hw : n * w.toNat ≤ s.length := by omega
    rw [readBuffersLoop, read_interleaved_segment_bytes, if_pos hw,
      exceptBindOkRed]
    dsimp only
    have hbuf : (s.take (n * w.toNat)).length = n * w.toNat := by
      rw [List.length_take]
      exact min_eq_left hw
    have hrows := groupBytes_length hbuf
    have h0 : ∀ o ∈ objs, ∀ sc ∈ scalersOf o,
        Scaler.raw_buffer_index sc = b →
        Scaler.byte_offset sc + (Scaler.data_type sc).size ≤ w.toNat := by
      intro o ho sc hsc hb
      have := hin o ho sc hsc 0 (by simp) (by omega)
      simpa using this
    rw [decodeBuffer_ok hrows h0, exceptBindOkRed]
    have htail : n * (rest.map Int.toNat).sum ≤
        (s.drop (n * w.toNat)).length := by
      rw [List.length_drop]
      omega
    have hintail : ∀ o ∈ objs, ∀ sc ∈ scalersOf o, ∀ j, j < rest.length →
        Scaler.raw_buffer_index sc = (b + 1) + j →
        Scaler.byte_offset sc + (Scaler.data_type sc).size ≤
          (rest.getD j 0).toNat := by
      intro o ho sc hsc j hj hb
      have := hin o ho sc hsc (j + 1) (by simpa using hj) (by omega)
      simpa using this
    rw [ih (b + 1) (s.drop (n * w.toNat)) htail hintail, exceptBindOkRed]
    congr 1
    rw [show (w :: rest).length = rest.length + 1 from rfl,
      List.range_succ_eq_map, List.flatMap_cons, List.flatMap_map]
    congr 1
    apply flatMap_congr
    intro j hj
    have h1 : (w :: rest).getD (j + 1) 0 = rest.getD j 0 := rfl
    have h2 : ((w :: rest).take (j + 1)).map Int.toNat =
        w.toNat :: (rest.take j).map Int.toNat := rfl
    rw [h1, h2, List.sum_cons, Nat.mul_add, ← List.drop_drop,
      show b + (j + 1) = b + 1 + j from by omega]

theorem readBuffersLoop_bad {e : Endianness} {n : Nat}
    {objs : List DaqmxSegmentObject} :
    ∀ (ws : List Int) (b : Nat) (s : List Nat),
      n * (ws.map Int.toNat).sum ≤ s.length →
      (∃ o ∈ objs, ∃ sc ∈ scalersOf o, ∃ j, j < ws.length ∧
        Scaler.raw_buffer_index sc = b + j ∧
        (ws.getD j 0).toNat <
          Scaler.byte_offset sc + (Scaler.data_type sc).size) →
      readBuffersLoop e n objs b ws s = .error .invalidOffset := by
  intro ws
  induction ws with
  | nil =>
    intro b s _ hbad
    obtain ⟨o, _, sc, _, j, hj, _⟩ := hbad
    simp at hj
  | cons w rest ih =>
    intro b s hlen hbad
    have hsum : ((w :: rest).map Int.toNat).sum =
        w.toNat + (rest.map Int.toNat).sum := by
      rw [List.map_cons, List.sum_cons]
    rw [hsum, Nat.mul_add] at hlen
    have hw : n * w.toNat ≤ s.length := by omega
    rw [readBuffersLoop, read_interleaved_segment_bytes, if_pos hw,
      exceptBindOkRed]
    dsimp only
    cases hdec : decodeBuffer e w.toNat
        (groupBytes w.toNat n (s.take (n * w.toNat))) b objs with
    | error err =>
      rw [exceptBindError, decodeBuffer_error hdec]
    | ok entries =>
      rw [exceptBindOkRed]
      have hok0 := decodeBuffer_ok_inv hdec
      obtain ⟨o, ho, sc, hsc, j, hj, hidx, hbound⟩ := hbad
      cases j with
      | zero =>
        exfalso
        have := hok0 o ho sc hsc (by omega)
        simp at hbound
        omega
      | succ j' =>
        have htail : n * (rest.map Int.toNat).sum ≤
            (s.drop (n * w.toNat)).length := by
          rw [List.length_drop]
          omega
        have hbad' : ∃ o ∈ objs, ∃ sc ∈ scalersOf o, ∃ j, j < rest.length ∧
            Scaler.raw_buffer_index sc = (b + 1) + j ∧
            (rest.getD j 0).toNat <
              Scaler.byte_offset sc + (Scaler.data_type sc).size := by
          refine ⟨o, ho, sc, hsc, j', ?_, by omega, ?_⟩
          · have : (w :: rest).length = rest.length + 1 := rfl
            omega
          · simpa using hbound
        rw [ih (b + 1) (s.drop (n * w.toNat)) htail hbad', exceptBindError]

/-- C1: when the chunk decode succeeds (all objects are DAQmx, metadata
is present, the stream holds every buffer and every scaler fits its
buffer), its result is exactly `specChunkEntries`: each scaler's column
is the bytes `[byte_offset, byte_offset + size)` of each of the
`chunk_size` rows of its own buffer slice, concatenated in row order
(`columnBytesSpec`), reinterpreted as values of the scaler's data type
at the segment's declared endianness, then post-processed — an
expression depending only on the stream, the widths, the chunk size and
that scaler's own fields, hence independent of every other scaler's
offset.  For a Format-Changing scaler post-processing is the identity
and the byte offset is `raw_byte_offset` itself, so its column is the
raw reinterpreted byte range. -/
theorem C1_format_changing_column (e : Endianness)
    (objs : List DaqmxSegmentObject) (s : List Nat)
    (obj0 : DaqmxSegmentObject) (rest : List DaqmxSegmentObject)
    (m0 : DaqMxMetadata)
    (h0 : objs = obj0 :: rest)
    (hdaq : ∀ o ∈ objs, o.data_type = TdsType.daqmxRawData)
    (hm : obj0.daqmx_metadata = some m0)
    (hlen : obj0.number_values * (m0.raw_data_widths.map Int.toNat).sum ≤
      s.length)
    (hin : ∀ o ∈ objs, ∀ sc ∈ scalersOf o,
      Scaler.raw_buffer_index sc < m0.raw_data_widths.length →
      Scaler.byte_offset sc + (Scaler.data_type sc).size ≤
        (m0.raw_data_widths.getD (Scaler.raw_buffer_index sc) 0).toNat) :
    read_data_chunk e objs s =
      .ok (specChunkEntries e obj0.number_values m0.raw_data_widths objs s) ∧
    (∀ (f : DaqMxScaler) (col : List Int),
      Scaler.postprocess_data (.formatChanging f) col = col) ∧
    (∀ f : DaqMxScaler,
      Scaler.byte_offset (.formatChanging f) = f.raw_byte_offset) := by
  refine ⟨?_, fun f col => rfl, fun f => rfl⟩
  subst h0
  rw [read_data_chunk.eq_def, if_neg (fun hn => hn hdaq)]
  dsimp only
  rw [hm]
  dsimp only
  have hin2 : ∀ o ∈ obj0 :: rest, ∀ sc ∈ scalersOf o, ∀ j,
      j < m0.raw_data_widths.length → Scaler.raw_buffer_index sc = 0 + j →
      Scaler.byte_offset sc + (Scaler.data_type sc).size ≤
        (m0.raw_data_widths.getD j 0).toNat := by
    intro o ho sc hsc j hj hb
    have hj' : Scaler.raw_buffer_index sc = j := by omega
    subst hj'
    exact hin o ho sc hsc hj
  rw [readBuffersLoop_ok m0.raw_data_widths 0 s hlen hin2]
  congr 1
  rw [specChunkEntries]
  exact flatMap_congr (fun j hj => by rw [Nat.zero_add])

/-- Witness for C1: the end-to-end example of the spec (one width-5
buffer, two rows, a u16 Format-Changing scaler at offset 0 and a
Digital-Line scaler at bit offset 32), whose decode yields columns
`[0x1234, 0x5678]` under scale id 7 and `[1, 0]` under scale id 9. -/
theorem C1_witness :
    (∀ o ∈ [c1Obj], o.data_type = TdsType.daqmxRawData) ∧
    c1Obj.daqmx_metadata = some c1Meta ∧
    read_data_chunk .little [c1Obj] c1Stream =
      .ok (specChunkEntries .little c1Obj.number_values
        c1Meta.raw_data_widths [c1Obj] c1Stream) ∧
    specChunkEntries .little c1Obj.number_values c1Meta.raw_data_widths
        [c1Obj] c1Stream =
      [("c", 7, [4660, 22136]), ("c", 9, [1, 0])] := by
  refine ⟨by decide, rfl, ?_, by decide⟩
  exact (C1_format_changing_column .little [c1Obj] c1Stream c1Obj [] c1Meta
    rfl (by decide) rfl (by decide) (by decide)).1

/-- C8: with the stream long enough for every declared buffer, a scaler
whose byte offset plus data-type width overruns the declared width of
the raw buffer it sources from makes the chunk decode fail with the
invalid-offset error (the out-of-bounds column selection) instead of
returning any decoded columns. -/
theorem C8_invalid_offset (e : Endianness)
    (objs : List DaqmxSegmentObject) (s : List Nat)
    (obj0 : DaqmxSegmentObject) (rest : List DaqmxSegmentObject)
    (m0 : DaqMxMetadata)
    (h0 : objs = obj0 :: rest)
    (hdaq : ∀ o ∈ objs, o.data_type = TdsType.daqmxRawData)
    (hm : obj0.daqmx_metadata = some m0)
    (hlen : obj0.number_values * (m0.raw_data_widths.map Int.toNat).sum ≤
      s.length)
    (hbad : ∃ o ∈ objs, ∃ sc ∈ scalersOf o,
      Scaler.raw_buffer_index sc < m0.raw_data_widths.length ∧
      (m0.raw_data_widths.getD (Scaler.raw_buffer_index sc) 0).toNat <
        Scaler.byte_offset sc + (Scaler.data_type sc).size) :
    read_data_chunk e objs s = .error .invalidOffset := by
  subst h0
  rw [read_data_chunk.eq_def, if_neg (fun hn => hn hdaq)]
  dsimp only
  rw [hm]
  dsimp only
  refine readBuffersLoop_bad m0.raw_data_widths 0 s hlen ?_
  obtain ⟨o, ho, sc, hsc, hj, hbound⟩ := hbad
  exact ⟨o, ho, sc, hsc, Scaler.raw_buffer_index sc, hj, by omega, hbound⟩

/-- Witness for C8: the corrupt fixture `c8Obj` (u16 scaler at byte
offset 4 of a width-5 buffer) makes the decode of a fully present
two-row chunk fail with the invalid-offset error. -/
theorem C8_witness :
    (∀ o ∈ [c8Obj], o.data_type = TdsType.daqmxRawData) ∧
    c8Obj.daqmx_metadata = some c8Meta ∧
    read_data_chunk .little [c8Obj] c1Stream = .error .invalidOffset := by
  refine ⟨by decide, rfl, ?_⟩
  exact C8_invalid_offset .little [c8Obj] c1Stream c8Obj [] c8Meta rfl
    (by decide) rfl (by decide)
    ⟨c8Obj, by decide, Scaler.formatChanging ⟨7, .uint16, 0, 4, 0⟩,
      by decide, by decide, by decide⟩

end Nptdms
